import Mathlib

/-!
Shallow embedding of the grid-layout optimizer in `src/lib/grid_optimizer.py`
(PauseAI/pauseai-collagen).  Python floats are modelled as rationals (all
quantities involved are exact ratios of machine integers far below the range
where double rounding could flip any comparison made by the program), Python
ints as naturals (every integer quantity in the module is non-negative:
`max(0, _)` differences become truncated subtraction), Python `None` as
`Option.none`, and `float('inf')` as `Option.none` in the running best score.
`int(x)` on the positive float quotients in `explore_grid_k_range` is floor,
i.e. natural-number division.
-/

namespace GridOptimizer

/-- Cost weight for empty grid slots; defined at module level in the source and
never used by any scoring computation in the module. -/
def EMPTY_SLOT_COST : ℚ := 100000

/-- Base cost for omitting images, multiplied by the fraction omitted. -/
def OMIT_BASE_COST : ℚ := 1500

/-- Cost per pixel of padding. -/
def PAD_COST : ℚ := 1

/-- Cost per pixel of clipping. -/
def CLIP_COST : ℚ := 2

/-- Maximum clip fraction of a cell edge that is still feasible. -/
def MAX_CLIP_FRACTION : ℚ := 33/100

/-- Strategy classification of `evaluate_grid_with_k`. -/
inductive Strategy
  | clip_both
  | clip_h_pad_v
  | clip_v_pad_h
  | pad_both
deriving DecidableEq

/-- One evaluated configuration, the dict built by `evaluate_grid_with_k`. -/
structure Config where
  k : ℕ
  strategy : Strategy
  cell_width : ℕ
  cell_height : ℕ
  collage_width : ℕ
  collage_height : ℕ
  padding_h : ℕ
  padding_v : ℕ
  clip_h : ℕ
  clip_v : ℕ
  clip_fraction_h : ℚ
  clip_fraction_v : ℚ
  fit_cost : ℚ
deriving DecidableEq

/-- Embedding of `evaluate_grid_with_k(cols, rows, k, target_size)`:
evaluates the grid with cell size `(3k, 4k)`, returning `none` when either
clip fraction exceeds `MAX_CLIP_FRACTION`. -/
def evaluate_grid_with_k (cols rows k target_size : ℕ) : Option Config :=
  let cell_width := 3 * k
  let cell_height := 4 * k
  let collage_width := cols * cell_width
  let collage_height := rows * cell_height
  let padding_h := target_size - collage_width
  let padding_v := target_size - collage_height
  let clip_h := collage_width - target_size
  let clip_v := collage_height - target_size
  let clip_fraction_h : ℚ := if 0 < clip_h then (clip_h : ℚ) / 2 / cell_width else 0
  let clip_fraction_v : ℚ := if 0 < clip_v then (clip_v : ℚ) / 2 / cell_height else 0
  if MAX_CLIP_FRACTION < clip_fraction_h ∨ MAX_CLIP_FRACTION < clip_fraction_v then
    none
  else
    let strategy :=
      if 0 < clip_h ∧ 0 < clip_v then Strategy.clip_both
      else if 0 < clip_h then Strategy.clip_h_pad_v
      else if 0 < clip_v then Strategy.clip_v_pad_h
      else Strategy.pad_both
    let fit_cost : ℚ :=
      ((padding_h + padding_v : ℕ) : ℚ) * PAD_COST + ((clip_h + clip_v : ℕ) : ℚ) * CLIP_COST
    some { k := k, strategy := strategy, cell_width := cell_width,
           cell_height := cell_height, collage_width := collage_width,
           collage_height := collage_height, padding_h := padding_h,
           padding_v := padding_v, clip_h := clip_h, clip_v := clip_v,
           clip_fraction_h := clip_fraction_h, clip_fraction_v := clip_fraction_v,
           fit_cost := fit_cost }

/-- Scale factors scanned by `explore_grid_k_range`: the Python source computes
`k_width_exact = target_size/(cols*3)` and `k_height_exact = target_size/(rows*4)`
as floats, truncates with `int(...)` (= floor on these positive values, i.e.
natural division), then scans `range(max(1, min-2), max+2 + 1)`. -/
def scanKs (cols rows target_size : ℕ) : List ℕ :=
  let k_width_floor := target_size / (cols * 3)
  let k_height_floor := target_size / (rows * 4)
  let k_min := max 1 (min k_width_floor k_height_floor - 2)
  let k_max := max k_width_floor k_height_floor + 2
  List.range' k_min (k_max + 1 - k_min)

/-- The feasible configurations collected by the scan loop of
`explore_grid_k_range` (its local `configs` list). -/
def feasibleConfigs (cols rows target_size : ℕ) : List Config :=
  (scanKs cols rows target_size).filterMap
    (fun k => evaluate_grid_with_k cols rows k target_size)

/-- The `pad_both_configs` sublist of `explore_grid_k_range`. -/
def padBothList (cols rows target_size : ℕ) : List Config :=
  (feasibleConfigs cols rows target_size).filter
    (fun c => decide (c.strategy = Strategy.pad_both))

/-- The `largest_pad_both_k` value of `explore_grid_k_range`
(Python `max(...)` over a non-empty list, as a fold). -/
def largestPadBothK (cols rows target_size : ℕ) : ℕ :=
  ((padBothList cols rows target_size).map Config.k).foldl max 0

/-- Embedding of `explore_grid_k_range(cols, rows, target_size)`: scan the k
range, then keep everything at or above the largest `pad_both` k when one
exists, otherwise keep all feasible configurations. -/
def explore_grid_k_range (cols rows target_size : ℕ) : List Config :=
  if (padBothList cols rows target_size).isEmpty then
    feasibleConfigs cols rows target_size
  else
    (feasibleConfigs cols rows target_size).filter
      (fun c => decide (largestPadBothK cols rows target_size ≤ c.k))

/-- One entry of the local `factorizations` list of `find_factorizations`. -/
structure FactorEntry where
  cols : ℕ
  rows : ℕ
  ratio_cr : ℚ
  ratio_error : ℚ
deriving DecidableEq

/-- Embedding of `find_factorizations(k, target_ratio, max_candidates,
min_ratio, max_ratio)` (parameters renamed `target_rt`, `min_rt`, `max_rt`):
enumerate divisor pairs with `rows` up to `isqrt k`, filter by the ratio
window, stable-sort by ratio error, and return the first `max_candidates`
as `(cols, rows)` pairs. -/
def find_factorizations (k : ℕ) (target_rt : ℚ) (max_candidates : ℕ)
    (min_rt max_rt : ℚ) : List (ℕ × ℕ) :=
  let base : List FactorEntry := (List.range' 1 (Nat.sqrt k)).filterMap (fun rows =>
    if k % rows = 0 then
      let cols := k / rows
      let r : ℚ := (cols : ℚ) / (rows : ℚ)
      if r < min_rt ∨ max_rt < r then none
      else some { cols := cols, rows := rows, ratio_cr := r,
                  ratio_error := |r - target_rt| }
    else none)
  let sorted := base.mergeSort (fun a b => decide (a.ratio_error ≤ b.ratio_error))
  (sorted.take max_candidates).map (fun f => (f.cols, f.rows))

/-- Fraction of requested images omitted when `k` of `n_images` are used. -/
def omitFraction (n_images k : ℕ) : ℚ := ((n_images - k : ℕ) : ℚ) / (n_images : ℚ)

/-- Omission cost `OMIT_BASE_COST * omit_fraction` of the orchestrator loop. -/
def omitCost (n_images k : ℕ) : ℚ := OMIT_BASE_COST * omitFraction n_images k

/-- The fully populated candidate dict appended by `optimize_for_n_images`
(and also built by `evaluate_custom_grid`); the `**cfg` splat is the `cfg`
field. -/
structure Candidate where
  cols : ℕ
  rows : ℕ
  grid_slots : ℕ
  used_images : ℕ
  omitted_images : ℕ
  omit_fraction : ℚ
  omit_cost : ℚ
  total_score : ℚ
  cfg : Config
deriving DecidableEq

/-- Candidates generated by one iteration of the outer loop of
`optimize_for_n_images` at used-image count `k`: every factorization of `k`,
then every configuration surviving `explore_grid_k_range` for that shape. -/
def candidatesAt (n_images target_size k : ℕ) : List Candidate :=
  (find_factorizations k (4/3) 5 (1/2) 2).flatMap (fun cr =>
    (explore_grid_k_range cr.1 cr.2 target_size).map (fun cfg =>
      { cols := cr.1, rows := cr.2, grid_slots := cr.1 * cr.2,
        used_images := k, omitted_images := n_images - k,
        omit_fraction := omitFraction n_images k,
        omit_cost := omitCost n_images k,
        total_score := omitCost n_images k + cfg.fit_cost,
        cfg := cfg }))

/-- Update of `best_score_so_far` (`none` plays `float('inf')`). -/
def updateBest (best : Option ℚ) (s : ℚ) : Option ℚ :=
  match best with
  | none => some s
  | some b => if s < b then some s else some b

/-- Break test `omit_cost > best_score_so_far` of the orchestrator loop
(`false` against the initial infinite best). -/
def breakCond (best : Option ℚ) (oc : ℚ) : Bool :=
  match best with
  | none => false
  | some b => decide (b < oc)

/-- The outer loop of `optimize_for_n_images`: the fuel argument is the
current value of the loop variable `k` (counting down to 1). -/
def optLoop (n_images target_size : ℕ) : ℕ → Option ℚ → List Candidate → List Candidate
  | 0, _, acc => acc
  | k + 1, best, acc =>
    if breakCond best (omitCost n_images (k + 1)) then acc
    else
      let cands := candidatesAt n_images target_size (k + 1)
      let best2 := cands.foldl (fun b c => updateBest b c.total_score) best
      optLoop n_images target_size k best2 (acc ++ cands)

/-- Embedding of `optimize_for_n_images(n_images, target_size)`. -/
def optimize_for_n_images (n_images target_size : ℕ) : List Candidate :=
  optLoop n_images target_size n_images none []

/-- Embedding of `get_top_layouts(n_images, target_size, top_n)`: stable sort
by total score ascending, then the first `top_n`. -/
def get_top_layouts (n_images target_size top_n : ℕ) : List Candidate :=
  ((optimize_for_n_images n_images target_size).mergeSort
    (fun a b => decide (a.total_score ≤ b.total_score))).take top_n

/-- Python `min(k_configs, key=lambda c: c['fit_cost'])` on the non-empty list
`c :: rest`: the first element achieving the minimal fit cost. -/
def pickMinFit (c : Config) (rest : List Config) : Config :=
  rest.foldl (fun b x => if x.fit_cost < b.fit_cost then x else b) c

/-- Embedding of `evaluate_custom_grid(cols, rows, n_images, target_size)`;
returns `none` exactly when the Python function returns `None`. -/
def evaluate_custom_grid (cols rows n_images target_size : ℕ) : Option Candidate :=
  let grid_slots := cols * rows
  let used_images := min grid_slots n_images
  let omitted := n_images - used_images
  let ofrac : ℚ := (omitted : ℚ) / (n_images : ℚ)
  let ocost : ℚ := OMIT_BASE_COST * ofrac
  match explore_grid_k_range cols rows target_size with
  | [] => none
  | c :: rest =>
    let best_cfg := pickMinFit c rest
    some { cols := cols, rows := rows, grid_slots := grid_slots,
           used_images := used_images, omitted_images := omitted,
           omit_fraction := ofrac, omit_cost := ocost,
           total_score := ocost + best_cfg.fit_cost, cfg := best_cfg }

/-! ### Generic list helpers -/

lemma mem_range'_one {s n m : ℕ} : m ∈ List.range' s n ↔ s ≤ m ∧ m < s + n := by
  rw [List.mem_range']
  constructor
  · rintro ⟨i, hi, rfl⟩
    omega
  · intro hm
    exact ⟨m - s, by omega, by omega⟩

lemma pairwise_lt_range'_one : ∀ (n s : ℕ), (List.range' s n).Pairwise (· < ·) := by
  intro n
  induction n with
  | zero => intro s; simp
  | succ m ih =>
    intro s
    rw [List.range'_succ]
    refine List.Pairwise.cons ?_ (ih (s + 1))
    intro b hb
    have := mem_range'_one.1 hb
    omega

lemma le_foldl_max : ∀ (l : List ℕ) (a : ℕ), a ≤ l.foldl max a := by
  intro l
  induction l with
  | nil => intro a; exact le_refl a
  | cons x t ih =>
    intro a
    calc a ≤ max a x := le_max_left a x
    _ ≤ (x :: t).foldl max a := ih (max a x)

lemma mem_le_foldl_max : ∀ (l : List ℕ) (a b : ℕ), b ∈ l → b ≤ l.foldl max a := by
  intro l
  induction l with
  | nil => intro a b hb; cases hb
  | cons x t ih =>
    intro a b hb
    rcases List.mem_cons.1 hb with rfl | hb
    · calc b ≤ max a b := le_max_right a b
      _ ≤ (b :: t).foldl max a := le_foldl_max t (max a b)
    · exact ih (max a x) b hb

lemma foldl_max_mem : ∀ (l : List ℕ) (a : ℕ), l.foldl max a = a ∨ l.foldl max a ∈ l := by
  intro l
  induction l with
  | nil => intro a; exact Or.inl rfl
  | cons x t ih =>
    intro a
    rcases ih (max a x) with h | h
    · rcases max_cases a x with ⟨he, _⟩ | ⟨he, _⟩
      · exact Or.inl (by rw [List.foldl_cons, h, he])
      · exact Or.inr (by rw [List.foldl_cons, h, he]; exact List.mem_cons_self x t)
    · exact Or.inr (List.mem_cons_of_mem x h)

lemma pairwise_ne_singleton {α : Type} {R : α → α → Prop} {l : List α}
    (hp : l.Pairwise R) (hirr : ∀ a ∈ l, ∀ b ∈ l, ¬R a b) (x : α) (hx : x ∈ l) :
    l = [x] := by
  cases l with
  | nil => cases hx
  | cons y t =>
    have ht : t = [] := by
      rw [List.eq_nil_iff_forall_not_mem]
      intro b hb
      exact hirr y (List.mem_cons_self y t) b (List.mem_cons_of_mem y hb)
        ((List.pairwise_cons.1 hp).1 b hb)
    subst ht
    rcases List.mem_singleton.1 hx with rfl
    rfl

/-! ### Facts about `evaluate_grid_with_k` -/

/-- Field-level description of a configuration accepted by
`evaluate_grid_with_k`. -/
lemma evaluate_spec {cols rows k ts : ℕ} {cfg : Config}
    (h : evaluate_grid_with_k cols rows k ts = some cfg) :
    cfg.k = k ∧ cfg.cell_width = 3 * k ∧ cfg.cell_height = 4 * k ∧
    cfg.padding_h = ts - cols * (3 * k) ∧ cfg.padding_v = ts - rows * (4 * k) ∧
    cfg.clip_h = cols * (3 * k) - ts ∧ cfg.clip_v = rows * (4 * k) - ts ∧
    cfg.clip_fraction_h ≤ MAX_CLIP_FRACTION ∧ cfg.clip_fraction_v ≤ MAX_CLIP_FRACTION ∧
    cfg.fit_cost = ((cfg.padding_h + cfg.padding_v : ℕ) : ℚ) * PAD_COST
      + ((cfg.clip_h + cfg.clip_v : ℕ) : ℚ) * CLIP_COST ∧
    0 ≤ cfg.fit_cost := by
  simp only [evaluate_grid_with_k] at h
  rw [ite_eq_iff] at h
  rcases h with ⟨_, h⟩ | ⟨hcond, h⟩
  · cases h
  · push_neg at hcond
    injection h with h
    subst h
    refine ⟨rfl, rfl, rfl, rfl, rfl, rfl, rfl, hcond.1, hcond.2, rfl, ?_⟩
    have hp : (0 : ℚ) ≤ PAD_COST := by norm_num [PAD_COST]
    have hc : (0 : ℚ) ≤ CLIP_COST := by norm_num [CLIP_COST]
    exact add_nonneg (mul_nonneg (Nat.cast_nonneg _) hp)
      (mul_nonneg (Nat.cast_nonneg _) hc)

/-! ### Facts about `scanKs`, `feasibleConfigs`, `explore_grid_k_range` -/

lemma mem_scanKs {cols rows ts k : ℕ} :
    k ∈ scanKs cols rows ts ↔
      max 1 (min (ts / (cols * 3)) (ts / (rows * 4)) - 2) ≤ k ∧
      k ≤ max (ts / (cols * 3)) (ts / (rows * 4)) + 2 := by
  simp only [scanKs]
  rw [mem_range'_one]
  have a := ts / (cols * 3)
  omega

lemma scanKs_pos {cols rows ts k : ℕ} (h : k ∈ scanKs cols rows ts) : 1 ≤ k := by
  have := mem_scanKs.1 h
  omega

lemma mem_feasibleConfigs {cols rows ts : ℕ} {cfg : Config} :
    cfg ∈ feasibleConfigs cols rows ts ↔
      ∃ k, k ∈ scanKs cols rows ts ∧ evaluate_grid_with_k cols rows k ts = some cfg := by
  simp [feasibleConfigs, List.mem_filterMap]

lemma feasibleConfigs_k_pos {cols rows ts : ℕ} {cfg : Config}
    (h : cfg ∈ feasibleConfigs cols rows ts) : 1 ≤ cfg.k := by
  obtain ⟨k, hk, he⟩ := mem_feasibleConfigs.1 h
  have := (evaluate_spec he).1
  subst this
  exact scanKs_pos hk

lemma feasibleConfigs_pairwise (cols rows ts : ℕ) :
    (feasibleConfigs cols rows ts).Pairwise (fun a b => a.k < b.k) := by
  rw [feasibleConfigs, List.pairwise_filterMap]
  refine (pairwise_lt_range'_one _ _).imp ?_
  intro a b hab x hx y hy
  rw [Option.mem_def] at hx hy
  rw [(evaluate_spec hx).1, (evaluate_spec hy).1]
  exact hab

lemma mem_padBothList {cols rows ts : ℕ} {cfg : Config} :
    cfg ∈ padBothList cols rows ts ↔
      cfg ∈ feasibleConfigs cols rows ts ∧ cfg.strategy = Strategy.pad_both := by
  simp [padBothList, List.mem_filter]

lemma le_largestPadBothK {cols rows ts : ℕ} {cfg : Config}
    (h : cfg ∈ padBothList cols rows ts) : cfg.k ≤ largestPadBothK cols rows ts :=
  mem_le_foldl_max _ 0 cfg.k (List.mem_map_of_mem Config.k h)

lemma exists_largestPadBothK {cols rows ts : ℕ}
    (h : padBothList cols rows ts ≠ []) :
    ∃ cfg ∈ padBothList cols rows ts, cfg.k = largestPadBothK cols rows ts := by
  rcases foldl_max_mem ((padBothList cols rows ts).map Config.k) 0 with h0 | hm
  · obtain ⟨c0, hc0⟩ := List.exists_mem_of_ne_nil _ h
    have h1 : 1 ≤ c0.k := feasibleConfigs_k_pos (mem_padBothList.1 hc0).1
    have h2 := mem_le_foldl_max _ 0 c0.k (List.mem_map_of_mem Config.k hc0)
    rw [largestPadBothK] at *
    omega
  · obtain ⟨cfg, hcfg, hk⟩ := List.mem_map.1 hm
    exact ⟨cfg, hcfg, hk⟩

lemma explore_eq_of_padBoth_eq_nil {cols rows ts : ℕ}
    (h : padBothList cols rows ts = []) :
    explore_grid_k_range cols rows ts = feasibleConfigs cols rows ts := by
  rw [explore_grid_k_range, if_pos (List.isEmpty_iff.2 h)]

lemma explore_eq_of_padBoth_ne_nil {cols rows ts : ℕ}
    (h : padBothList cols rows ts ≠ []) :
    explore_grid_k_range cols rows ts = (feasibleConfigs cols rows ts).filter
      (fun c => decide (largestPadBothK cols rows ts ≤ c.k)) := by
  rw [explore_grid_k_range, if_neg]
  simp [List.isEmpty_iff, h]

lemma explore_subset {cols rows ts : ℕ} :
    explore_grid_k_range cols rows ts ⊆ feasibleConfigs cols rows ts := by
  by_cases h : padBothList cols rows ts = []
  · rw [explore_eq_of_padBoth_eq_nil h]
    exact fun x hx => hx
  · rw [explore_eq_of_padBoth_ne_nil h]
    exact fun x hx => (List.mem_filter.1 hx).1

lemma explore_ne_nil {cols rows ts : ℕ} (h : feasibleConfigs cols rows ts ≠ []) :
    explore_grid_k_range cols rows ts ≠ [] := by
  by_cases hpb : padBothList cols rows ts = []
  · rw [explore_eq_of_padBoth_eq_nil hpb]
    exact h
  · rw [explore_eq_of_padBoth_ne_nil hpb]
    obtain ⟨cfg, hcfg, hk⟩ := exists_largestPadBothK hpb
    have hmem : cfg ∈ (feasibleConfigs cols rows ts).filter
        (fun c => decide (largestPadBothK cols rows ts ≤ c.k)) :=
      List.mem_filter.2 ⟨(mem_padBothList.1 hcfg).1, by simp [hk]⟩
    exact List.ne_nil_of_mem hmem

lemma explore_eq_nil_iff {cols rows ts : ℕ} :
    explore_grid_k_range cols rows ts = [] ↔ feasibleConfigs cols rows ts = [] := by
  constructor
  · intro h
    by_contra hne
    exact explore_ne_nil hne h
  · intro h
    have hpb : padBothList cols rows ts = [] := by
      rw [padBothList, h]
      rfl
    rw [explore_eq_of_padBoth_eq_nil hpb, h]

/-! ### Facts about `find_factorizations` -/

lemma mem_find_factorizations {k mc : ℕ} {target_rt min_rt max_rt : ℚ} {p : ℕ × ℕ}
    (h : p ∈ find_factorizations k target_rt mc min_rt max_rt) :
    p.1 * p.2 = k ∧ 1 ≤ p.2 := by
  simp only [find_factorizations] at h
  obtain ⟨f, hf, hp⟩ := List.mem_map.1 h
  have hf2 := List.mem_mergeSort.1 (List.mem_of_mem_take hf)
  obtain ⟨rows, hrows, hsome⟩ := List.mem_filterMap.1 hf2
  rw [ite_eq_iff] at hsome
  rcases hsome with ⟨hdvd, hsome⟩ | ⟨_, hsome⟩
  · rw [ite_eq_iff] at hsome
    rcases hsome with ⟨_, hsome⟩ | ⟨_, hsome⟩
    · cases hsome
    · injection hsome with hsome
      subst hsome
      subst hp
      have h1 : 1 ≤ rows := (mem_range'_one.1 hrows).1
      exact ⟨Nat.div_mul_cancel (Nat.dvd_of_mod_eq_zero hdvd), h1⟩
  · cases hsome

lemma find_factorizations_one :
    find_factorizations 1 (4/3) 5 (1/2) 2 = [(1, 1)] := by
  with_unfolding_all decide

/-! ### Facts about the orchestrator loop -/

lemma mem_candidatesAt {n ts k : ℕ} {c : Candidate} (h : c ∈ candidatesAt n ts k) :
    ∃ cr : ℕ × ℕ, cr ∈ find_factorizations k (4/3) 5 (1/2) 2 ∧
      c.cfg ∈ explore_grid_k_range cr.1 cr.2 ts ∧
      c.cols = cr.1 ∧ c.rows = cr.2 ∧ c.grid_slots = cr.1 * cr.2 ∧
      c.used_images = k ∧ c.omitted_images = n - k ∧
      c.omit_fraction = omitFraction n k ∧ c.omit_cost = omitCost n k ∧
      c.total_score = omitCost n k + c.cfg.fit_cost := by
  simp only [candidatesAt] at h
  obtain ⟨cr, hcr, hc⟩ := List.mem_flatMap.1 h
  obtain ⟨cfg, hcfg, hceq⟩ := List.mem_map.1 hc
  subst hceq
  exact ⟨cr, hcr, hcfg, rfl, rfl, rfl, rfl, rfl, rfl, rfl, rfl⟩

lemma optLoop_prefix (n ts : ℕ) :
    ∀ (fuel : ℕ) (best : Option ℚ) (acc : List Candidate),
      ∃ l, optLoop n ts fuel best acc = acc ++ l := by
  intro fuel
  induction fuel with
  | zero =>
    intro best acc
    exact ⟨[], (List.append_nil acc).symm⟩
  | succ f ih =>
    intro best acc
    simp only [optLoop]
    by_cases hb : breakCond best (omitCost n (f + 1)) = true
    · rw [if_pos hb]
      exact ⟨[], (List.append_nil acc).symm⟩
    · rw [if_neg hb]
      obtain ⟨l, hl⟩ := ih _ (acc ++ candidatesAt n ts (f + 1))
      exact ⟨candidatesAt n ts (f + 1) ++ l, by rw [hl, List.append_assoc]⟩

lemma mem_optLoop {n ts : ℕ} :
    ∀ {fuel : ℕ} {best : Option ℚ} {acc : List Candidate} {c : Candidate},
      c ∈ optLoop n ts fuel best acc →
      c ∈ acc ∨ ∃ k, 1 ≤ k ∧ k ≤ fuel ∧ c ∈ candidatesAt n ts k := by
  intro fuel
  induction fuel with
  | zero =>
    intro best acc c h
    exact Or.inl h
  | succ f ih =>
    intro best acc c h
    simp only [optLoop] at h
    by_cases hb : breakCond best (omitCost n (f + 1)) = true
    · rw [if_pos hb] at h
      exact Or.inl h
    · rw [if_neg hb] at h
      rcases ih h with hacc | ⟨k, hk1, hkf, hkc⟩
      · rcases List.mem_append.1 hacc with h1 | h2
        · exact Or.inl h1
        · exact Or.inr ⟨f + 1, by omega, le_refl _, h2⟩
      · exact Or.inr ⟨k, hk1, by omega, hkc⟩

lemma mem_optimize_for_n_images {n ts : ℕ} {c : Candidate}
    (h : c ∈ optimize_for_n_images n ts) :
    ∃ k, 1 ≤ k ∧ k ≤ n ∧ c ∈ candidatesAt n ts k := by
  rcases mem_optLoop h with h0 | h1
  · cases h0
  · exact h1

lemma mem_get_top_layouts {n ts top_n : ℕ} {c : Candidate}
    (h : c ∈ get_top_layouts n ts top_n) : c ∈ optimize_for_n_images n ts :=
  List.mem_mergeSort.1 (List.mem_of_mem_take h)

lemma candidatesAt_one_4096_ne_nil (n : ℕ) : candidatesAt n 4096 1 ≠ [] := by
  have hex : explore_grid_k_range 1 1 4096 ≠ [] := by
    apply explore_ne_nil
    have hmem : (evaluate_grid_with_k 1 1 1024 4096).isSome := by
      with_unfolding_all decide
    obtain ⟨cfg, hcfg⟩ := Option.isSome_iff_exists.1 hmem
    have hm : cfg ∈ feasibleConfigs 1 1 4096 :=
      mem_feasibleConfigs.2 ⟨1024, by with_unfolding_all decide, hcfg⟩
    exact List.ne_nil_of_mem hm
  simp only [candidatesAt, find_factorizations_one, List.flatMap_cons, List.flatMap_nil,
    List.append_nil, ne_eq, List.map_eq_nil_iff]
  exact hex

lemma optLoop_none_nil_ne_nil (n : ℕ) :
    ∀ fuel, 1 ≤ fuel → optLoop n 4096 fuel none [] ≠ [] := by
  intro fuel
  induction fuel with
  | zero => omega
  | succ f ih =>
    intro _
    simp only [optLoop, breakCond, Bool.false_eq_true, if_false]
    rcases Nat.eq_zero_or_pos f with rfl | hf
    · simp only [optLoop, List.nil_append]
      exact candidatesAt_one_4096_ne_nil n
    · by_cases hc : candidatesAt n 4096 (f + 1) = []
      · rw [hc]
        simp only [List.foldl_nil, List.append_nil]
        exact ih hf
      · obtain ⟨l, hl⟩ := optLoop_prefix n 4096 f
          ((candidatesAt n 4096 (f + 1)).foldl (fun b c => updateBest b c.total_score) none)
          ([] ++ candidatesAt n 4096 (f + 1))
        rw [hl, List.nil_append]
        exact List.append_ne_nil_of_left_ne_nil hc l

/-! ### Facts about `evaluate_custom_grid` -/

lemma pickMinFit_mem : ∀ (rest : List Config) (c : Config), pickMinFit c rest ∈ c :: rest := by
  intro rest
  induction rest with
  | nil =>
    intro c
    simp [pickMinFit]
  | cons x t ih =>
    intro c
    rw [pickMinFit, List.foldl_cons]
    have h2 := ih (if x.fit_cost < c.fit_cost then x else c)
    by_cases h : x.fit_cost < c.fit_cost
    · rw [if_pos h] at h2 ⊢
      exact List.mem_cons_of_mem c h2
    · rw [if_neg h] at h2 ⊢
      rcases List.mem_cons.1 h2 with h3 | h3
      · exact List.mem_cons.2 (Or.inl h3)
      · exact List.mem_cons_of_mem c (List.mem_cons_of_mem x h3)

lemma pickMinFit_le : ∀ (rest : List Config) (c : Config),
    ∀ x ∈ c :: rest, (pickMinFit c rest).fit_cost ≤ x.fit_cost := by
  intro rest
  induction rest with
  | nil =>
    intro c x hx
    rcases List.mem_singleton.1 hx with rfl
    simp [pickMinFit]
  | cons y t ih =>
    intro c x hx
    rw [pickMinFit, List.foldl_cons]
    have hstart : (if y.fit_cost < c.fit_cost then y else c).fit_cost ≤ c.fit_cost ∧
        (if y.fit_cost < c.fit_cost then y else c).fit_cost ≤ y.fit_cost := by
      by_cases h : y.fit_cost < c.fit_cost
      · rw [if_pos h]
        exact ⟨le_of_lt h, le_refl _⟩
      · rw [if_neg h]
        exact ⟨le_refl _, le_of_not_lt h⟩
    have hhead := ih (if y.fit_cost < c.fit_cost then y else c) _
      (List.mem_cons_self _ t)
    rcases List.mem_cons.1 hx with rfl | hx2
    · exact le_trans hhead hstart.1
    · rcases List.mem_cons.1 hx2 with rfl | hx3
      · exact le_trans hhead hstart.2
      · exact ih _ x (List.mem_cons_of_mem _ hx3)

lemma evaluate_custom_grid_eq_none_iff {cols rows n ts : ℕ} :
    evaluate_custom_grid cols rows n ts = none ↔
      explore_grid_k_range cols rows ts = [] := by
  rcases hE : explore_grid_k_range cols rows ts with _ | ⟨c, rest⟩
  · simp [evaluate_custom_grid, hE]
  · simp [evaluate_custom_grid, hE]

lemma evaluate_custom_grid_some {cols rows n ts : ℕ} {r : Candidate}
    (h : evaluate_custom_grid cols rows n ts = some r) :
    r.cfg ∈ explore_grid_k_range cols rows ts ∧
    (∀ c ∈ explore_grid_k_range cols rows ts, r.cfg.fit_cost ≤ c.fit_cost) ∧
    r.cols = cols ∧ r.rows = rows ∧ r.grid_slots = cols * rows ∧
    r.used_images = min (cols * rows) n ∧
    r.omitted_images = n - min (cols * rows) n ∧
    r.omit_fraction = ((n - min (cols * rows) n : ℕ) : ℚ) / (n : ℚ) ∧
    r.omit_cost = OMIT_BASE_COST * r.omit_fraction ∧
    r.total_score = r.omit_cost + r.cfg.fit_cost := by
  rcases hE : explore_grid_k_range cols rows ts with _ | ⟨c, rest⟩
  · rw [evaluate_custom_grid_eq_none_iff.2 hE] at h
    cases h
  · simp only [evaluate_custom_grid, hE] at h
    injection h with h
    subst h
    refine ⟨?_, ?_, rfl, rfl, rfl, rfl, rfl, rfl, rfl, rfl⟩
    · exact pickMinFit_mem rest c
    · intro x hx
      exact pickMinFit_le rest c x hx

/-! ### Shared bridges from explore membership to evaluator facts -/

lemma explore_clip_le {cols rows ts : ℕ} {cfg : Config}
    (h : cfg ∈ explore_grid_k_range cols rows ts) :
    cfg.clip_fraction_h ≤ MAX_CLIP_FRACTION ∧
    cfg.clip_fraction_v ≤ MAX_CLIP_FRACTION := by
  obtain ⟨k, _, he⟩ := mem_feasibleConfigs.1 (explore_subset h)
  obtain ⟨-, -, -, -, -, -, -, h8, h9, -, -⟩ := evaluate_spec he
  exact ⟨h8, h9⟩

lemma explore_fit {cols rows ts : ℕ} {cfg : Config}
    (h : cfg ∈ explore_grid_k_range cols rows ts) :
    cfg.fit_cost = ((cfg.padding_h + cfg.padding_v : ℕ) : ℚ) * PAD_COST
      + ((cfg.clip_h + cfg.clip_v : ℕ) : ℚ) * CLIP_COST ∧ 0 ≤ cfg.fit_cost := by
  obtain ⟨k, _, he⟩ := mem_feasibleConfigs.1 (explore_subset h)
  obtain ⟨-, -, -, -, -, -, -, -, -, h10, h11⟩ := evaluate_spec he
  exact ⟨h10, h11⟩

/-! ### Claim theorems -/

/-- Claim C2: every candidate returned to a caller by `optimize_for_n_images`,
`get_top_layouts` or `evaluate_custom_grid` satisfies
`clip_fraction_h ≤ MAX_CLIP_FRACTION` and `clip_fraction_v ≤ MAX_CLIP_FRACTION`;
a configuration violating either bound is never present in a returned result. -/
theorem C2_clip_fraction_bounds (n ts top_n cols rows : ℕ) :
    (∀ c ∈ optimize_for_n_images n ts,
      c.cfg.clip_fraction_h ≤ MAX_CLIP_FRACTION ∧
      c.cfg.clip_fraction_v ≤ MAX_CLIP_FRACTION) ∧
    (∀ c ∈ get_top_layouts n ts top_n,
      c.cfg.clip_fraction_h ≤ MAX_CLIP_FRACTION ∧
      c.cfg.clip_fraction_v ≤ MAX_CLIP_FRACTION) ∧
    (∀ r, evaluate_custom_grid cols rows n ts = some r →
      r.cfg.clip_fraction_h ≤ MAX_CLIP_FRACTION ∧
      r.cfg.clip_fraction_v ≤ MAX_CLIP_FRACTION) := by
  have hopt : ∀ c ∈ optimize_for_n_images n ts,
      c.cfg.clip_fraction_h ≤ MAX_CLIP_FRACTION ∧
      c.cfg.clip_fraction_v ≤ MAX_CLIP_FRACTION := by
    intro c hc
    obtain ⟨k, -, -, hck⟩ := mem_optimize_for_n_images hc
    obtain ⟨cr, -, hcfg, -⟩ := mem_candidatesAt hck
    exact explore_clip_le hcfg
  refine ⟨hopt, ?_, ?_⟩
  · intro c hc
    exact hopt c (mem_get_top_layouts hc)
  · intro r hr
    exact explore_clip_le (evaluate_custom_grid_some hr).1

/-- Witness for C2 at the concrete call `evaluate_custom_grid 1 1 1 12`. -/
theorem C2_clip_fraction_bounds_witness :
    ((evaluate_custom_grid 1 1 1 12).get (by with_unfolding_all decide)).cfg.clip_fraction_h
        ≤ MAX_CLIP_FRACTION ∧
    ((evaluate_custom_grid 1 1 1 12).get (by with_unfolding_all decide)).cfg.clip_fraction_v
        ≤ MAX_CLIP_FRACTION :=
  (C2_clip_fraction_bounds 1 12 3 1 1).2.2 _ (Option.some_get _).symm

/-- Claim C3: for every candidate returned by `optimize_for_n_images`,
`get_top_layouts` or `evaluate_custom_grid`, `total_score = omit_cost + fit_cost`
exactly, with `fit_cost = (padding_h + padding_v) * PAD_COST +
(clip_h + clip_v) * CLIP_COST` and `omit_cost = OMIT_BASE_COST * omitted / n`. -/
theorem C3_total_score_decomposition (n ts top_n cols rows : ℕ) :
    (∀ c ∈ optimize_for_n_images n ts,
      c.total_score = c.omit_cost + c.cfg.fit_cost ∧
      c.cfg.fit_cost = ((c.cfg.padding_h + c.cfg.padding_v : ℕ) : ℚ) * PAD_COST
        + ((c.cfg.clip_h + c.cfg.clip_v : ℕ) : ℚ) * CLIP_COST ∧
      c.omit_cost = OMIT_BASE_COST * (c.omitted_images : ℚ) / (n : ℚ)) ∧
    (∀ c ∈ get_top_layouts n ts top_n,
      c.total_score = c.omit_cost + c.cfg.fit_cost ∧
      c.cfg.fit_cost = ((c.cfg.padding_h + c.cfg.padding_v : ℕ) : ℚ) * PAD_COST
        + ((c.cfg.clip_h + c.cfg.clip_v : ℕ) : ℚ) * CLIP_COST ∧
      c.omit_cost = OMIT_BASE_COST * (c.omitted_images : ℚ) / (n : ℚ)) ∧
    (∀ r, evaluate_custom_grid cols rows n ts = some r →
      r.total_score = r.omit_cost + r.cfg.fit_cost ∧
      r.cfg.fit_cost = ((r.cfg.padding_h + r.cfg.padding_v : ℕ) : ℚ) * PAD_COST
        + ((r.cfg.clip_h + r.cfg.clip_v : ℕ) : ℚ) * CLIP_COST ∧
      r.omit_cost = OMIT_BASE_COST * (r.omitted_images : ℚ) / (n : ℚ)) := by
  have hopt : ∀ c ∈ optimize_for_n_images n ts,
      c.total_score = c.omit_cost + c.cfg.fit_cost ∧
      c.cfg.fit_cost = ((c.cfg.padding_h + c.cfg.padding_v : ℕ) : ℚ) * PAD_COST
        + ((c.cfg.clip_h + c.cfg.clip_v : ℕ) : ℚ) * CLIP_COST ∧
      c.omit_cost = OMIT_BASE_COST * (c.omitted_images : ℚ) / (n : ℚ) := by
    intro c hc
    obtain ⟨k, -, -, hck⟩ := mem_optimize_for_n_images hc
    obtain ⟨cr, -, hcfg, -, -, -, -, hom, -, hoc, hts2⟩ := mem_candidatesAt hck
    refine ⟨by rw [hts2, hoc], (explore_fit hcfg).1, ?_⟩
    rw [hoc, hom, omitCost, omitFraction, mul_div_assoc]
  refine ⟨hopt, ?_, ?_⟩
  · intro c hc
    exact hopt c (mem_get_top_layouts hc)
  · intro r hr
    obtain ⟨hcfg, -, -, -, -, -, hom, hof, hoc, hts2⟩ := evaluate_custom_grid_some hr
    refine ⟨by rw [hts2], (explore_fit hcfg).1, ?_⟩
    rw [hoc, hof, hom, mul_div_assoc]

/-- Witness for C3 at the concrete call `evaluate_custom_grid 1 1 1 12`. -/
theorem C3_total_score_decomposition_witness :
    ((evaluate_custom_grid 1 1 1 12).get (by with_unfolding_all decide)).total_score
      = ((evaluate_custom_grid 1 1 1 12).get (by with_unfolding_all decide)).omit_cost
        + ((evaluate_custom_grid 1 1 1 12).get (by with_unfolding_all decide)).cfg.fit_cost :=
  ((C3_total_score_decomposition 1 12 3 1 1).2.2 _ (Option.some_get _).symm).1

/-- Claim C4: for all positive inputs, `get_top_layouts n ts top_n` returns at
most `top_n` candidates, sorted non-decreasing by `total_score`. -/
theorem C4_top_layouts_sorted (n ts top_n : ℕ)
    (hn : 1 ≤ n) (hts : 1 ≤ ts) (htn : 1 ≤ top_n) :
    (get_top_layouts n ts top_n).length ≤ top_n ∧
    (get_top_layouts n ts top_n).Sorted
      (fun a b => a.total_score ≤ b.total_score) := by
  constructor
  · rw [get_top_layouts]
    exact List.length_take_le top_n _
  · have hs := @List.sorted_mergeSort Candidate
      (fun a b => decide (a.total_score ≤ b.total_score))
      (fun a b c h1 h2 => decide_eq_true
        (le_trans (of_decide_eq_true h1) (of_decide_eq_true h2)))
      (fun a b => by
        rcases le_total a.total_score b.total_score with h | h
        · simp [h]
        · simp [h])
      (optimize_for_n_images n ts)
    exact List.Pairwise.sublist (List.take_sublist _ _)
      (hs.imp (fun hab => of_decide_eq_true hab))

/-- Witness for C4 at `n = 1`, `ts = 12`, `top_n = 3`. -/
theorem C4_top_layouts_sorted_witness :
    (get_top_layouts 1 12 3).length ≤ 3 ∧
    (get_top_layouts 1 12 3).Sorted (fun a b => a.total_score ≤ b.total_score) :=
  C4_top_layouts_sorted 1 12 3 (by norm_num) (by norm_num) (by norm_num)

/-- Claim C5: `evaluate_custom_grid cols rows n ts` returns `none` (not an
exception) iff `explore_grid_k_range cols rows ts` is empty (iff no scanned
`k` is feasible); when it returns a result, the result is built from the
surviving configuration with minimum `fit_cost`. -/
theorem C5_custom_grid_none_iff (cols rows n ts : ℕ)
    (hc : 1 ≤ cols) (hr : 1 ≤ rows) (hn : 1 ≤ n) (hts : 1 ≤ ts) :
    (evaluate_custom_grid cols rows n ts = none ↔
      explore_grid_k_range cols rows ts = []) ∧
    (explore_grid_k_range cols rows ts = [] ↔
      feasibleConfigs cols rows ts = []) ∧
    (∀ r, evaluate_custom_grid cols rows n ts = some r →
      r.cfg ∈ explore_grid_k_range cols rows ts ∧
      (∀ c ∈ explore_grid_k_range cols rows ts, r.cfg.fit_cost ≤ c.fit_cost) ∧
      r.total_score = r.omit_cost + r.cfg.fit_cost) :=
  ⟨evaluate_custom_grid_eq_none_iff, explore_eq_nil_iff,
    fun r hr2 =>
      ⟨(evaluate_custom_grid_some hr2).1, (evaluate_custom_grid_some hr2).2.1,
        (evaluate_custom_grid_some hr2).2.2.2.2.2.2.2.2.2⟩⟩

/-- Witness for C5 at `cols = rows = 1`, `n = 1`, `ts = 12`. -/
theorem C5_custom_grid_none_iff_witness :
    (evaluate_custom_grid 1 1 1 12 = none ↔ explore_grid_k_range 1 1 12 = []) ∧
    (explore_grid_k_range 1 1 12 = [] ↔ feasibleConfigs 1 1 12 = []) ∧
    (∀ r, evaluate_custom_grid 1 1 1 12 = some r →
      r.cfg ∈ explore_grid_k_range 1 1 12 ∧
      (∀ c ∈ explore_grid_k_range 1 1 12, r.cfg.fit_cost ≤ c.fit_cost) ∧
      r.total_score = r.omit_cost + r.cfg.fit_cost) :=
  C5_custom_grid_none_iff 1 1 1 12 (by norm_num) (by norm_num) (by norm_num) (by norm_num)

/-- Claim C6: the early-termination bound of `optimize_for_n_images` is sound:
for `1 ≤ k < k0 ≤ n` the omission cost at `k0` is a lower bound for the
omission cost at `k`, every candidate generated at `k` has non-negative fit
cost and `total_score = omit_cost + fit_cost`, hence when
`omit_cost k0 > B` (the best score so far) every candidate that iteration `k`
would generate scores strictly above `B`. -/
theorem C6_pruning_bound_sound (n ts k k0 : ℕ) (B : ℚ)
    (hk : 1 ≤ k) (hkk0 : k < k0) (hk0n : k0 ≤ n) :
    omitCost n k0 ≤ omitCost n k ∧
    (∀ c ∈ candidatesAt n ts k, 0 ≤ c.cfg.fit_cost ∧
      c.total_score = omitCost n k + c.cfg.fit_cost) ∧
    (B < omitCost n k0 → ∀ c ∈ candidatesAt n ts k, B < c.total_score) := by
  have hn0 : (0 : ℚ) < (n : ℚ) := by
    have : 1 ≤ n := by omega
    exact_mod_cast Nat.lt_of_lt_of_le Nat.zero_lt_one this
  have hmono : omitCost n k0 ≤ omitCost n k := by
    unfold omitCost omitFraction
    refine mul_le_mul_of_nonneg_left ?_ (by norm_num [OMIT_BASE_COST])
    refine (div_le_div_iff_of_pos_right hn0).2 ?_
    exact_mod_cast Nat.sub_le_sub_left (le_of_lt hkk0) n
  have hcand : ∀ c ∈ candidatesAt n ts k, 0 ≤ c.cfg.fit_cost ∧
      c.total_score = omitCost n k + c.cfg.fit_cost := by
    intro c hc
    obtain ⟨cr, -, hcfg, -, -, -, -, -, -, -, hts2⟩ := mem_candidatesAt hc
    exact ⟨(explore_fit hcfg).2, hts2⟩
  refine ⟨hmono, hcand, ?_⟩
  intro hB c hc
  obtain ⟨hfit, hts2⟩ := hcand c hc
  rw [hts2]
  calc B < omitCost n k0 := hB
  _ ≤ omitCost n k := hmono
  _ ≤ omitCost n k + c.cfg.fit_cost := le_add_of_nonneg_right hfit

/-- Witness for C6 at `n = 3`, `ts = 12`, `k = 1`, `k0 = 2`, `B = 0`. -/
theorem C6_pruning_bound_sound_witness :
    omitCost 3 2 ≤ omitCost 3 1 ∧
    (∀ c ∈ candidatesAt 3 12 1, 0 ≤ c.cfg.fit_cost ∧
      c.total_score = omitCost 3 1 + c.cfg.fit_cost) ∧
    ((0 : ℚ) < omitCost 3 2 → ∀ c ∈ candidatesAt 3 12 1, (0 : ℚ) < c.total_score) :=
  C6_pruning_bound_sound 3 12 1 2 0 (by norm_num) (by norm_num) (by norm_num)

/-- Claim C7: with `F` the feasible configurations over the scanned `k` range,
if some member of `F` has strategy `pad_both` then `explore_grid_k_range`
returns exactly the members of `F` whose `k` is at or above the largest
`pad_both` `k` (so exactly one `pad_both` configuration survives); if no
member of `F` has strategy `pad_both`, the whole of `F` is returned. -/
theorem C7_dominance_pruning (cols rows ts : ℕ)
    (hc : 1 ≤ cols) (hr : 1 ≤ rows) (hts : 1 ≤ ts) :
    ((∃ c ∈ feasibleConfigs cols rows ts, c.strategy = Strategy.pad_both) →
      (∃ c ∈ padBothList cols rows ts, c.k = largestPadBothK cols rows ts) ∧
      (∀ c ∈ padBothList cols rows ts, c.k ≤ largestPadBothK cols rows ts) ∧
      (∀ cfg, cfg ∈ explore_grid_k_range cols rows ts ↔
        cfg ∈ feasibleConfigs cols rows ts ∧
        largestPadBothK cols rows ts ≤ cfg.k) ∧
      ((explore_grid_k_range cols rows ts).filter
        (fun c => decide (c.strategy = Strategy.pad_both))).length = 1) ∧
    ((∀ c ∈ feasibleConfigs cols rows ts, c.strategy ≠ Strategy.pad_both) →
      explore_grid_k_range cols rows ts = feasibleConfigs cols rows ts) := by
  constructor
  · intro hex
    have hpb : padBothList cols rows ts ≠ [] := by
      obtain ⟨c, hcF, hcs⟩ := hex
      exact List.ne_nil_of_mem (mem_padBothList.2 ⟨hcF, hcs⟩)
    have hEq := explore_eq_of_padBoth_ne_nil hpb
    have hiff : ∀ cfg, cfg ∈ explore_grid_k_range cols rows ts ↔
        cfg ∈ feasibleConfigs cols rows ts ∧
        largestPadBothK cols rows ts ≤ cfg.k := by
      intro cfg
      rw [hEq, List.mem_filter]
      simp only [decide_eq_true_eq]
    obtain ⟨c0, hc0, hk0⟩ := exists_largestPadBothK hpb
    refine ⟨⟨c0, hc0, hk0⟩, fun c hcm => le_largestPadBothK hcm, hiff, ?_⟩
    have hmem : c0 ∈ (explore_grid_k_range cols rows ts).filter
        (fun c => decide (c.strategy = Strategy.pad_both)) := by
      rw [List.mem_filter]
      refine ⟨(hiff c0).2 ⟨(mem_padBothList.1 hc0).1, le_of_eq hk0.symm⟩, ?_⟩
      simp [(mem_padBothList.1 hc0).2]
    have hall : ∀ d ∈ (explore_grid_k_range cols rows ts).filter
        (fun c => decide (c.strategy = Strategy.pad_both)),
        d.k = largestPadBothK cols rows ts := by
      intro d hd
      rw [List.mem_filter, decide_eq_true_eq] at hd
      have hdF := (hiff d).1 hd.1
      have hdpb : d ∈ padBothList cols rows ts := mem_padBothList.2 ⟨hdF.1, hd.2⟩
      exact le_antisymm (le_largestPadBothK hdpb) hdF.2
    have hpw : ((explore_grid_k_range cols rows ts).filter
        (fun c => decide (c.strategy = Strategy.pad_both))).Pairwise
        (fun a b => a.k < b.k) := by
      refine List.Pairwise.filter _ ?_
      rw [hEq]
      exact List.Pairwise.filter _ (feasibleConfigs_pairwise cols rows ts)
    have hsingle := pairwise_ne_singleton hpw
      (fun a ha b hb hlt => by rw [hall a ha, hall b hb] at hlt; exact lt_irrefl _ hlt)
      c0 hmem
    rw [hsingle]
    rfl
  · intro hnone
    apply explore_eq_of_padBoth_eq_nil
    rw [List.eq_nil_iff_forall_not_mem]
    intro c hcm
    obtain ⟨hcF, hcs⟩ := mem_padBothList.1 hcm
    exact hnone c hcF hcs

/-- Witness for C7 at `cols = rows = 1`, `ts = 12` (the scan there produces
`pad_both` configurations at k = 1, 2, 3, the largest surviving). -/
theorem C7_dominance_pruning_witness :
    ((∃ c ∈ feasibleConfigs 1 1 12, c.strategy = Strategy.pad_both) →
      (∃ c ∈ padBothList 1 1 12, c.k = largestPadBothK 1 1 12) ∧
      (∀ c ∈ padBothList 1 1 12, c.k ≤ largestPadBothK 1 1 12) ∧
      (∀ cfg, cfg ∈ explore_grid_k_range 1 1 12 ↔
        cfg ∈ feasibleConfigs 1 1 12 ∧ largestPadBothK 1 1 12 ≤ cfg.k) ∧
      ((explore_grid_k_range 1 1 12).filter
        (fun c => decide (c.strategy = Strategy.pad_both))).length = 1) ∧
    ((∀ c ∈ feasibleConfigs 1 1 12, c.strategy ≠ Strategy.pad_both) →
      explore_grid_k_range 1 1 12 = feasibleConfigs 1 1 12) :=
  C7_dominance_pruning 1 1 12 (by norm_num) (by norm_num) (by norm_num)

/-- Counterexample to claim C8 as stated: at
`evaluate_custom_grid 5 4 18 4096` the returned candidate has
`omitted_images = 0`, not `2` (18 images fill 18 of the 20 slots; none are
omitted — two slots are empty instead). -/
theorem C8_scenario_counterexample :
    (evaluate_custom_grid 5 4 18 4096).map Candidate.omitted_images ≠ some 2 := by
  with_unfolding_all decide

/-- Claim C8 amended: `evaluate_custom_grid 5 4 18 4096` returns a candidate
with `grid_slots = 20`, `used_images = 18`, `omitted_images = 0` and
`omit_fraction = 0`. -/
theorem C8_scenario_amended :
    (evaluate_custom_grid 5 4 18 4096).map
      (fun r => (r.grid_slots, r.used_images, r.omitted_images, r.omit_fraction))
      = some (20, 18, 0, 0) := by
  with_unfolding_all decide

/-- Counterexample to claim C9 as stated: at `cols = 1`, `rows = 1`,
`ts = 4097` the evaluator is invoked at `k = 1022`, yet `1022` lies strictly
below `min(ts/(cols*3), ts/(rows*4)) - 2 = 1022.25`, so the scanned set is
not the set of integers of the claimed real interval (the code floors the
exact estimates before subtracting 2). -/
theorem C9_scan_window_counterexample :
    (1022 : ℕ) ∈ scanKs 1 1 4097 ∧
    ((1022 : ℚ) < min ((4097 : ℚ) / (1 * 3)) ((4097 : ℚ) / (1 * 4)) - 2) := by
  constructor
  · with_unfolding_all decide
  · with_unfolding_all decide

/-- Claim C9 amended: the scanned scale factors are exactly the integers of
`[⌊min(ts/(cols*3), ts/(rows*4))⌋ - 2, ⌊max(ts/(cols*3), ts/(rows*4))⌋ + 2]`
(floors taken before the ±2 offsets), clamped below at 1. -/
theorem C9_scan_window_amended (cols rows ts : ℕ)
    (hc : 1 ≤ cols) (hr : 1 ≤ rows) (hts : 1 ≤ ts) (k : ℕ) :
    k ∈ scanKs cols rows ts ↔
      max 1 (min ⌊(ts : ℚ) / ((cols : ℚ) * 3)⌋₊ ⌊(ts : ℚ) / ((rows : ℚ) * 4)⌋₊ - 2) ≤ k ∧
      k ≤ max ⌊(ts : ℚ) / ((cols : ℚ) * 3)⌋₊ ⌊(ts : ℚ) / ((rows : ℚ) * 4)⌋₊ + 2 := by
  have h1 : ((cols : ℚ) * 3) = ((cols * 3 : ℕ) : ℚ) := by push_cast; ring
  have h2 : ((rows : ℚ) * 4) = ((rows * 4 : ℕ) : ℚ) := by push_cast; ring
  rw [h1, h2, Nat.floor_div_eq_div, Nat.floor_div_eq_div]
  exact mem_scanKs

/-- Witness for C9 amended at `cols = rows = 1`, `ts = 12`, `k = 3`. -/
theorem C9_scan_window_amended_witness :
    (3 : ℕ) ∈ scanKs 1 1 12 ↔
      max 1 (min ⌊(12 : ℚ) / ((1 : ℚ) * 3)⌋₊ ⌊(12 : ℚ) / ((1 : ℚ) * 4)⌋₊ - 2) ≤ 3 ∧
      3 ≤ max ⌊(12 : ℚ) / ((1 : ℚ) * 3)⌋₊ ⌊(12 : ℚ) / ((1 : ℚ) * 4)⌋₊ + 2 := by
  have h := C9_scan_window_amended 1 1 12 (by norm_num) (by norm_num) (by norm_num) 3
  exact_mod_cast h

/-- Claim C10: every candidate of `optimize_for_n_images` (hence of
`get_top_layouts`) has `grid_slots = cols * rows = used_images` — the main
search uses only exact factorizations, never leaves an empty slot, and its
total score decomposes over `OMIT_BASE_COST`, `PAD_COST` and `CLIP_COST`
only, so `EMPTY_SLOT_COST` never contributes. -/
theorem C10_exact_factorization_no_empty_slots (n ts top_n : ℕ) :
    (∀ c ∈ optimize_for_n_images n ts,
      c.grid_slots = c.cols * c.rows ∧ c.grid_slots = c.used_images ∧
      c.total_score = c.omit_cost
        + (((c.cfg.padding_h + c.cfg.padding_v : ℕ) : ℚ) * PAD_COST
          + ((c.cfg.clip_h + c.cfg.clip_v : ℕ) : ℚ) * CLIP_COST)) ∧
    (∀ c ∈ get_top_layouts n ts top_n,
      c.grid_slots = c.cols * c.rows ∧ c.grid_slots = c.used_images) := by
  have hopt : ∀ c ∈ optimize_for_n_images n ts,
      c.grid_slots = c.cols * c.rows ∧ c.grid_slots = c.used_images ∧
      c.total_score = c.omit_cost
        + (((c.cfg.padding_h + c.cfg.padding_v : ℕ) : ℚ) * PAD_COST
          + ((c.cfg.clip_h + c.cfg.clip_v : ℕ) : ℚ) * CLIP_COST) := by
    intro c hc
    obtain ⟨k, -, -, hck⟩ := mem_optimize_for_n_images hc
    obtain ⟨cr, hcr, hcfg, hcols, hrows, hslots, hused, -, -, hoc, hts2⟩ :=
      mem_candidatesAt hck
    have hprod := (mem_find_factorizations hcr).1
    refine ⟨by rw [hslots, hcols, hrows], by rw [hslots, hused, hprod], ?_⟩
    rw [hts2, hoc, (explore_fit hcfg).1]
  refine ⟨hopt, ?_⟩
  intro c hc
  obtain ⟨h1, h2, -⟩ := hopt c (mem_get_top_layouts hc)
  exact ⟨h1, h2⟩

/-- Witness for C10: a concrete member of `optimize_for_n_images 1 12` with
`grid_slots = used_images`. -/
theorem C10_exact_factorization_no_empty_slots_witness :
    ∃ c ∈ optimize_for_n_images 1 12, c.grid_slots = c.cols * c.rows ∧
      c.grid_slots = c.used_images :=
  ⟨(optimize_for_n_images 1 12).head (by with_unfolding_all decide),
    List.head_mem _,
    ((C10_exact_factorization_no_empty_slots 1 12 3).1 _ (List.head_mem _)).1,
    ((C10_exact_factorization_no_empty_slots 1 12 3).1 _ (List.head_mem _)).2.1⟩

/-- Counterexample to claim C1 as stated: the single-row shape `(3, 1)` is
not a factorization the search considers for `k = 3` — its ratio `3` exceeds
`max_ratio = 2`, so `find_factorizations` rejects it (the returned list is
empty for `k = 3`). -/
theorem C1_single_row_counterexample :
    ((3 : ℕ), (1 : ℕ)) ∉ find_factorizations 3 (4/3) 5 (1/2) 2 := by
  with_unfolding_all decide

/-- Claim C1 amended: for every `n ≥ 1` (target size 4096, default weights)
`optimize_for_n_images` returns at least one candidate; not because `(n, 1)`
is always a valid factorization (it is rejected for `n ≥ 3` by the
`max_ratio` filter), but because the outer loop reaches `k = 1` whenever no
candidate has yet been found, and the `(1, 1)` shape is feasible at target
size 4096. -/
theorem C1_search_nonempty (n : ℕ) (hn : 1 ≤ n) :
    optimize_for_n_images n 4096 ≠ [] := by
  rw [optimize_for_n_images]
  exact optLoop_none_nil_ne_nil n n hn

/-- Witness for C1 amended at `n = 1`. -/
theorem C1_search_nonempty_witness : optimize_for_n_images 1 4096 ≠ [] :=
  C1_search_nonempty 1 (by norm_num)

end GridOptimizer
